import Mathlib

/- Lean model of the result-normalization engine and query-execution
lifecycle of the obsidian-neo4j plugin (src/query/QueryProcessor.ts and
src/connection/Neo4jConnection.ts), with theorems settling the
specification claims about it.

Record field values are modelled by Val: a JavaScript value is a
primitive, an array, or an object. An object carries the list of property
keys that the duck-typed membership checks consult, together with the
payload fields the processor reads when the corresponding keys are
present (identity.toString() results are modelled as the already
stringified field). Property maps are carried through the processor
unchanged and never inspected, so they are modelled as opaque
association lists. -/

namespace Neo4jQuery

/-- Property maps pass through the processor unchanged; opaque model. -/
abbrev Props := List (String × String)

/-- Output node shape built by processResults. -/
structure GraphNode where
  id : String
  label : String
  properties : Props
deriving DecidableEq, Repr

/-- Output relationship shape built by processResults. -/
structure GraphRelationship where
  id : String
  source : String
  target : String
  type : String
  properties : Props
deriving DecidableEq, Repr

/-- The fields of a path segment's start or end node that the path branch
reads (identity, labels, properties). -/
structure SegNode where
  identity : String
  labels : List String
  properties : Option Props
deriving DecidableEq, Repr

/-- The fields of a path segment's relationship that the path branch reads.
The field end_ models the JavaScript property named end. -/
structure SegRel where
  identity : String
  start : String
  end_ : String
  type : String
  properties : Option Props
deriving DecidableEq, Repr

/-- One path segment: start node, end node and connecting relationship. -/
structure Seg where
  start : SegNode
  end_ : SegNode
  relationship : SegRel
deriving DecidableEq, Repr

/-- JavaScript primitive values (with integers for numerics). -/
inductive Prim where
  | null
  | boolean (b : Bool)
  | num (n : Int)
  | str (s : String)
deriving DecidableEq, Repr

/-- A JavaScript object as the duck-typed checks see it: the key list that
membership tests consult, plus the payload fields the processor reads when
the corresponding keys are present. Absent payloads keep their default and
are never consulted because the guarding key test fails first. For a boxed
integer, hasToNumber / toNumber / toStr model the presence of a toNumber
method, its result, and the toString rendering. -/
structure ObjVal where
  keys : List String := []
  identity : String := ""
  labels : List String := []
  properties : Option Props := none
  type : String := ""
  start : String := ""
  end_ : String := ""
  segments : List Seg := []
  hasToNumber : Bool := false
  toNumber : Int := 0
  toStr : String := ""
deriving DecidableEq, Repr

/-- A record field value: primitive, array, or object. -/
inductive Val where
  | prim (p : Prim)
  | arr (elems : List Val)
  | object (o : ObjVal)

/-- Object payload of a value; only consulted under guards that have
already established the value is an object. -/
def Val.asObj : Val → ObjVal
  | .object o => o
  | _ => {}

/-- JavaScript truthiness. -/
def Val.truthy : Val → Bool
  | .prim .null => false
  | .prim (.boolean b) => b
  | .prim (.num n) => n != 0
  | .prim (.str s) => s != ""
  | .arr _ => true
  | .object _ => true

/-- Whether typeof the value is the string object (true for null, arrays
and objects). -/
def Val.typeofObject : Val → Bool
  | .prim .null => true
  | .arr _ => true
  | .object _ => true
  | .prim _ => false

/-- The JavaScript in operator for the keys the processor tests. Arrays and
primitives never carry any of the tested keys. -/
def Val.hasKey : Val → String → Bool
  | .object o, k => o.keys.contains k
  | .arr _, _ => false
  | .prim _, _ => false

/-- Mirrors QueryProcessor.isNode: truthy, typeof object, and carrying
labels and properties keys. -/
def isNode (v : Val) : Bool :=
  v.truthy && v.typeofObject && v.hasKey "labels" && v.hasKey "properties"

/-- Mirrors QueryProcessor.isRelationship. -/
def isRelationship (v : Val) : Bool :=
  v.truthy && v.typeofObject && v.hasKey "type" && v.hasKey "start" && v.hasKey "end"

/-- Mirrors QueryProcessor.isPath. -/
def isPath (v : Val) : Bool :=
  v.truthy && v.typeofObject && v.hasKey "segments"

/-- The four shapes a field value is classified into. -/
inductive Shape where
  | nodeS
  | relS
  | pathS
  | scalarS
deriving DecidableEq, Repr

/-- The ordered predicate chain of processResults' per-field dispatch. -/
def classify (v : Val) : Shape :=
  if isNode v then .nodeS
  else if isRelationship v then .relS
  else if isPath v then .pathS
  else .scalarS

/-- Mirrors QueryProcessor.formatScalarValue: boxed integers (objects with
low and high keys) become a number via toNumber when available, otherwise
their string rendering; arrays recurse element-wise; everything else is
returned unchanged. -/
def formatScalarValue : Val → Val
  | .object o =>
      if o.keys.contains "low" && o.keys.contains "high" then
        if o.hasToNumber then .prim (.num o.toNumber) else .prim (.str o.toStr)
      else .object o
  | .arr xs => .arr (xs.attach.map (fun x => formatScalarValue x.1))
  | .prim p => .prim p
decreasing_by
  simp_wf
  have h := List.sizeOf_lt_of_mem x.2
  omega

/-- Node object literal shared by the node branch and the path branch:
labels joined with a colon, with the empty join falling back to Node, and
a missing property map falling back to the empty map. -/
def mkNode (ident : String) (labels : List String) (properties : Option Props) : GraphNode :=
  { id := ident
    label := if String.intercalate ":" labels = "" then "Node" else String.intercalate ":" labels
    properties := properties.getD [] }

/-- Node built from a node-classified object value. -/
def nodeFrom (o : ObjVal) : GraphNode := mkNode o.identity o.labels o.properties

/-- Relationship built from a relationship-classified object value: empty
type falls back to RELATES_TO. -/
def relFrom (o : ObjVal) : GraphRelationship :=
  { id := o.identity
    source := o.start
    target := o.end_
    type := if o.type = "" then "RELATES_TO" else o.type
    properties := o.properties.getD [] }

/-- Relationship built from a path segment's relationship field. -/
def relFromSegRel (r : SegRel) : GraphRelationship :=
  { id := r.identity
    source := r.start
    target := r.end_
    type := if r.type = "" then "RELATES_TO" else r.type
    properties := r.properties.getD [] }

/-- Node built from a path segment's start field. -/
def segStartNode (s : Seg) : GraphNode := mkNode s.start.identity s.start.labels s.start.properties

/-- Node built from a path segment's end field. -/
def segEndNode (s : Seg) : GraphNode := mkNode s.end_.identity s.end_.labels s.end_.properties

/-- Relationship built from a path segment. -/
def segRelOf (s : Seg) : GraphRelationship := relFromSegRel s.relationship

/-- Membership test of the node map (nodes.has), on the insertion-ordered
list model of the JavaScript Map. -/
def hasId (nodes : List GraphNode) (i : String) : Bool :=
  nodes.any (fun m => m.id == i)

/-- The guarded nodes.set call: insert at the end when the id is unseen. -/
def addNodeIfNew (nodes : List GraphNode) (n : GraphNode) : List GraphNode :=
  if hasId nodes n.id then nodes else nodes ++ [n]

/-- One iteration of the path branch's segment loop: add start node, add
end node, append the segment relationship. -/
def addSeg (acc : List GraphNode × List GraphRelationship) (s : Seg) :
    List GraphNode × List GraphRelationship :=
  (addNodeIfNew (addNodeIfNew acc.1 (segStartNode s)) (segEndNode s), acc.2 ++ [segRelOf s])

/-- The mutable locals of processResults' record loop: the execution-wide
node map and relationship list, plus the per-record scalar map and the
per-record hasGraphData flag. -/
structure FieldState where
  nodes : List GraphNode
  rels : List GraphRelationship
  recordData : List (String × Val)
  hasGraphData : Bool

/-- Processing of one record field, mirroring the if chain of
processResults. Note that hasGraphData is set only in the relationship
branch, exactly as in the source. -/
def processField (st : FieldState) (key : String) (v : Val) : FieldState :=
  if isNode v then
    { st with nodes := addNodeIfNew st.nodes (nodeFrom v.asObj) }
  else if isRelationship v then
    { st with hasGraphData := true, rels := st.rels ++ [relFrom v.asObj] }
  else if isPath v then
    let res := v.asObj.segments.foldl addSeg (st.nodes, st.rels)
    { st with nodes := res.1, rels := res.2 }
  else
    { st with recordData := st.recordData ++ [(key, formatScalarValue v)] }

/-- A record: its keys in order, paired with the values record.get
returns (record keys are distinct in a driver record, so iterating the
pairs models keys.forEach plus get). -/
abbrev Rec := List (String × Val)

/-- The accumulators of processResults across records. -/
structure Accum where
  nodes : List GraphNode
  relationships : List GraphRelationship
  scalarData : List (List (String × Val))

/-- Processing of one record: fold processField over its fields starting
from an empty scalar map and a cleared hasGraphData flag, then push the
scalar map when the flag is unset or the map is non-empty. -/
def processRecord (acc : Accum) (r : Rec) : Accum :=
  let fs := r.foldl (fun st kv => processField st kv.1 kv.2)
    { nodes := acc.nodes, rels := acc.relationships, recordData := [], hasGraphData := false }
  { nodes := fs.nodes
    relationships := fs.rels
    scalarData :=
      if !fs.hasGraphData || fs.recordData.length != 0 then acc.scalarData ++ [fs.recordData]
      else acc.scalarData }

/-- Result shape of processResults: scalarData is undefined when empty. -/
structure EnhancedGraphData where
  nodes : List GraphNode
  relationships : List GraphRelationship
  scalarData : Option (List (List (String × Val)))

/-- Mirrors QueryProcessor.processResults on the materialized record
list. -/
def processResults (records : List Rec) : EnhancedGraphData :=
  let acc := records.foldl processRecord { nodes := [], relationships := [], scalarData := [] }
  { nodes := acc.nodes
    relationships := acc.relationships
    scalarData := if acc.scalarData.length > 0 then some acc.scalarData else none }

/-- A JavaScript error value as the catch block tests it: whether it is a
truthy object, whether it carries a string message property (every Error
instance does), its optional code string, and its instanceof facts. -/
structure JsError where
  isObject : Bool
  hasMessageStr : Bool
  message : String
  code : Option String
  isConnectionError : Bool
  isErrorInstance : Bool
deriving DecidableEq, Repr

/-- Mirrors QueryProcessor.isNeo4jError: a truthy object with a string
message property. -/
def isNeo4jError (e : JsError) : Bool := e.isObject && e.hasMessageStr

/-- JavaScript String.includes on the model's strings. -/
def strIncludes (s pat : String) : Bool :=
  s.data.tails.any (fun t => pat.data.isPrefixOf t)

/-- What execute throws: a QueryError with a message (and possibly the
original error attached), or the original caught value re-thrown. -/
inductive ExecErr where
  | queryError (message : String) (originalAttached : Bool)
  | rethrown (e : JsError)
deriving DecidableEq, Repr

/-- The catch block of execute: the ordered tests applied to a caught
error, producing what is thrown onward. The optional chaining on code is
modelled by testing the code string defaulted to the empty string. -/
def classifyCaught (e : JsError) : ExecErr :=
  if isNeo4jError e then
    if strIncludes (e.code.getD "") "SyntaxError" then
      .queryError ("Syntax error in query: " ++ e.message) false
    else if strIncludes (e.code.getD "") "Unauthorized" then
      .queryError "Database connection lost. Please check settings." false
    else
      .queryError ("Neo4j error: " ++ e.message) false
  else if e.isConnectionError then
    .rethrown e
  else if e.isErrorInstance then
    .queryError "Query execution failed. Check console for details." true
  else
    .queryError "Query execution failed. Check console for details." false

/-- The ConnectionError thrown by Neo4jConnection.getSession when no
driver is connected: an Error instance, hence a truthy object with a
string message and no code property. -/
def notConnectedError : JsError :=
  { isObject := true
    hasMessageStr := true
    message := "Not connected to database. Call connect() first."
    code := none
    isConnectionError := true
    isErrorInstance := true }

/-- The environment one execute call runs against: either session
acquisition throws (getSession's ConnectionError), or a session exists
and is described by the outcome of run (a record list or a thrown error)
and by whether close rejects. -/
inductive AcquireResult where
  | failure
  | success (runResult : Except JsError (List Rec)) (closeFailure : Option JsError)

/-- What a rejected execute carries: an error thrown from the try/catch
body, or a close rejection from the finally block (which in JavaScript
replaces the pending result or error). -/
inductive FinalError where
  | fromCatch (e : ExecErr)
  | fromClose (e : JsError)
deriving DecidableEq, Repr

/-- Observable outcome of one execute call: the settled value (the
processed graph data on success; the summary and timing fields carry no
claim-relevant content and are omitted) together with the number of
session.close invocations. -/
structure ExecResult where
  outcome : Except FinalError EnhancedGraphData
  closeCalls : Nat

/-- Mirrors QueryProcessor.execute's control flow: acquire a session (on
failure the catch block classifies the error and no close happens because
session is still null); otherwise run and process, classify any thrown
error, and always close exactly once in the finally block, a close
rejection replacing the pending outcome. -/
def execute (acq : AcquireResult) : ExecResult :=
  match acq with
  | .failure =>
      { outcome := .error (.fromCatch (classifyCaught notConnectedError)), closeCalls := 0 }
  | .success runResult closeFailure =>
      let primary : Except ExecErr EnhancedGraphData :=
        match runResult with
        | .ok records => .ok (processResults records)
        | .error e => .error (classifyCaught e)
      match closeFailure with
      | some c => { outcome := .error (.fromClose c), closeCalls := 1 }
      | none =>
          match primary with
          | .ok g => { outcome := .ok g, closeCalls := 1 }
          | .error e2 => { outcome := .error (.fromCatch e2), closeCalls := 1 }

/-- The node value of Scenario A: a driver node object for Ann. -/
def annObj : ObjVal :=
  { keys := ["identity", "labels", "properties"]
    identity := "4"
    labels := ["Person"]
    properties := some [("name", "Ann")] }

/-- A close rejection used to exercise the finally block. -/
def closeFailErr : JsError :=
  { isObject := true
    hasMessageStr := true
    message := "close failed"
    code := none
    isConnectionError := false
    isErrorInstance := true }

/-- A syntax-class Neo4j error as the driver reports one. -/
def syntaxErr : JsError :=
  { isObject := true
    hasMessageStr := true
    message := "Invalid input"
    code := some "Neo.ClientError.Statement.SyntaxError"
    isConnectionError := false
    isErrorInstance := true }

/-- The stream of nodes the path branch constructs from a segment list, in
loop order: each segment contributes its start node then its end node. -/
def segNodeOccs : List Seg → List GraphNode
  | [] => []
  | s :: rest => segStartNode s :: segEndNode s :: segNodeOccs rest

/-- The stream of node constructions one field value causes, in encounter
order (used to characterize the deduplicating accumulation). -/
def fieldNodeOccs (v : Val) : List GraphNode :=
  if isNode v then [nodeFrom v.asObj]
  else if isRelationship v then []
  else if isPath v then segNodeOccs v.asObj.segments
  else []

/-- The stream of relationship constructions one field value causes. -/
def fieldRelOccs (v : Val) : List GraphRelationship :=
  if isNode v then []
  else if isRelationship v then [relFrom v.asObj]
  else if isPath v then v.asObj.segments.map segRelOf
  else []

/-- Node-construction stream of one record, field order. -/
def recNodeOccs : List (String × Val) → List GraphNode
  | [] => []
  | kv :: rest => fieldNodeOccs kv.2 ++ recNodeOccs rest

/-- Relationship-construction stream of one record, field order. -/
def recRelOccs : List (String × Val) → List GraphRelationship
  | [] => []
  | kv :: rest => fieldRelOccs kv.2 ++ recRelOccs rest

/-- Node-construction stream of a whole execution, record order. -/
def nodeOccs : List Rec → List GraphNode
  | [] => []
  | r :: rest => recNodeOccs r ++ nodeOccs rest

/-- Relationship-construction stream of a whole execution, record order. -/
def relOccs : List Rec → List GraphRelationship
  | [] => []
  | r :: rest => recRelOccs r ++ relOccs rest

/-- Append an id when not already present: the id-level shadow of
addNodeIfNew. -/
def addIdIfNew (l : List String) (i : String) : List String :=
  if l.contains i then l else l ++ [i]

/-- First-seen-order deduplication of an id stream; states the node
ordering invariant. -/
def firstSeen (l : List String) : List String := l.foldl addIdIfNew []

/-- The empty field state: fresh accumulators and per-record locals. -/
def fs0 : FieldState := { nodes := [], rels := [], recordData := [], hasGraphData := false }

/-- The records of the node-deduplication demonstration: the same node
identity in two records. -/
def demoRecs : List Rec := [[("n", Val.object annObj)], [("m", Val.object annObj)]]

/-- The GraphNode Scenario A produces for Ann. -/
def annNode : GraphNode := { id := "4", label := "Person", properties := [("name", "Ann")] }

/-- A one-segment path object value. -/
def demoSeg : Seg :=
  { start := { identity := "1", labels := ["A"], properties := some [] }
    end_ := { identity := "2", labels := ["B"], properties := some [] }
    relationship :=
      { identity := "9", start := "1", end_ := "2", type := "KNOWS", properties := some [] } }

/-- A path value carrying one segment. -/
def demoPathObj : ObjVal := { keys := ["segments"], segments := [demoSeg] }

/-- An object value matching none of the three graph shapes. -/
def malformedObj : ObjVal := { keys := ["foo"] }

/-- A boxed integer object with a toNumber method. -/
def boxedInt : ObjVal := { keys := ["low", "high"], hasToNumber := true, toNumber := 42 }

/-- A node value whose label list holds one empty string, so the labels
join to the empty string. -/
def blankLabelObj : ObjVal :=
  { keys := ["identity", "labels", "properties"]
    identity := "7"
    labels := [""]
    properties := some [] }

/-- A relationship value with an empty type tag. -/
def emptyTypeRelObj : ObjVal :=
  { keys := ["identity", "type", "start", "end"]
    identity := "9"
    start := "1"
    end_ := "2" }

/-- Nodes reached by the segment loop equal the node stream folded through
the deduplicating insertion. -/
theorem segfold_fst (segs : List Seg) (ns : List GraphNode) (rs : List GraphRelationship) :
    (segs.foldl addSeg (ns, rs)).1 = (segNodeOccs segs).foldl addNodeIfNew ns := by
  induction segs generalizing ns rs with
  | nil => rfl
  | cons s rest ih => simp [addSeg, segNodeOccs, ih]

/-- Relationships reached by the segment loop are appended in segment
order. -/
theorem segfold_snd (segs : List Seg) (ns : List GraphNode) (rs : List GraphRelationship) :
    (segs.foldl addSeg (ns, rs)).2 = rs ++ segs.map segRelOf := by
  induction segs generalizing ns rs with
  | nil => simp
  | cons s rest ih => simp [addSeg, ih]

/-- processField's node effect is the fold of its node stream. -/
theorem processField_nodes (st : FieldState) (key : String) (v : Val) :
    (processField st key v).nodes = (fieldNodeOccs v).foldl addNodeIfNew st.nodes := by
  by_cases h1 : isNode v
  · simp [processField, fieldNodeOccs, h1]
  · by_cases h2 : isRelationship v
    · simp [processField, fieldNodeOccs, h1, h2]
    · by_cases h3 : isPath v
      · simp [processField, fieldNodeOccs, h1, h2, h3, segfold_fst]
      · simp [processField, fieldNodeOccs, h1, h2, h3]

/-- processField's relationship effect appends its relationship stream. -/
theorem processField_rels (st : FieldState) (key : String) (v : Val) :
    (processField st key v).rels = st.rels ++ fieldRelOccs v := by
  by_cases h1 : isNode v
  · simp [processField, fieldRelOccs, h1]
  · by_cases h2 : isRelationship v
    · simp [processField, fieldRelOccs, h1, h2]
    · by_cases h3 : isPath v
      · simp [processField, fieldRelOccs, h1, h2, h3, segfold_snd]
      · simp [processField, fieldRelOccs, h1, h2, h3]

/-- The field loop of one record, node effect. -/
theorem recFold_nodes (fields : List (String × Val)) (st : FieldState) :
    (fields.foldl (fun st kv => processField st kv.1 kv.2) st).nodes
      = (recNodeOccs fields).foldl addNodeIfNew st.nodes := by
  induction fields generalizing st with
  | nil => rfl
  | cons kv rest ih => simp [recNodeOccs, List.foldl_append, ih, processField_nodes]

/-- The field loop of one record, relationship effect. -/
theorem recFold_rels (fields : List (String × Val)) (st : FieldState) :
    (fields.foldl (fun st kv => processField st kv.1 kv.2) st).rels
      = st.rels ++ recRelOccs fields := by
  induction fields generalizing st with
  | nil => simp [recRelOccs]
  | cons kv rest ih => simp [recRelOccs, ih, processField_rels]

/-- processRecord's node effect. -/
theorem processRecord_nodes (acc : Accum) (r : Rec) :
    (processRecord acc r).nodes = (recNodeOccs r).foldl addNodeIfNew acc.nodes := by
  simp [processRecord, recFold_nodes]

/-- processRecord's relationship effect. -/
theorem processRecord_rels (acc : Accum) (r : Rec) :
    (processRecord acc r).relationships = acc.relationships ++ recRelOccs r := by
  simp [processRecord, recFold_rels]

/-- The record loop, node effect. -/
theorem foldPR_nodes (recs : List Rec) (acc : Accum) :
    (recs.foldl processRecord acc).nodes = (nodeOccs recs).foldl addNodeIfNew acc.nodes := by
  induction recs generalizing acc with
  | nil => rfl
  | cons r rest ih => simp [nodeOccs, List.foldl_append, ih, processRecord_nodes]

/-- The record loop, relationship effect. -/
theorem foldPR_rels (recs : List Rec) (acc : Accum) :
    (recs.foldl processRecord acc).relationships = acc.relationships ++ relOccs recs := by
  induction recs generalizing acc with
  | nil => simp [relOccs]
  | cons r rest ih => simp [relOccs, ih, processRecord_rels]

/-- The node output of processResults is the fold of the whole node
stream through the deduplicating insertion. -/
theorem processResults_nodes (recs : List Rec) :
    (processResults recs).nodes = (nodeOccs recs).foldl addNodeIfNew [] := by
  simp [processResults, foldPR_nodes]

/-- The relationship output of processResults is exactly the relationship
stream, in encounter order. -/
theorem processResults_rels (recs : List Rec) :
    (processResults recs).relationships = relOccs recs := by
  simp [processResults, foldPR_rels]

/-- hasId decides membership of the id among the accumulated nodes. -/
theorem hasId_iff (l : List GraphNode) (i : String) :
    hasId l i = true ↔ i ∈ l.map GraphNode.id := by
  simp [hasId, List.any_eq_true, List.mem_map]

/-- hasId over an append. -/
theorem hasId_append (l₁ l₂ : List GraphNode) (i : String) :
    hasId (l₁ ++ l₂) i = (hasId l₁ i || hasId l₂ i) := by
  simp [hasId]

/-- Membership survives a deduplicating insertion. -/
theorem addNodeIfNew_mem {l : List GraphNode} {a : GraphNode} (n : GraphNode) (h : a ∈ l) :
    a ∈ addNodeIfNew l n := by
  unfold addNodeIfNew
  split
  · exact h
  · exact List.mem_append_left _ h

/-- hasId is monotone under a deduplicating insertion. -/
theorem hasId_addNodeIfNew {l : List GraphNode} {i : String} (n : GraphNode)
    (h : hasId l i = true) : hasId (addNodeIfNew l n) i = true := by
  unfold addNodeIfNew
  split
  · exact h
  · simp [hasId_append, h]

/-- After inserting n, its id is present. -/
theorem hasId_addNodeIfNew_self (l : List GraphNode) (n : GraphNode) :
    hasId (addNodeIfNew l n) n.id = true := by
  unfold addNodeIfNew
  split
  case isTrue h => exact h
  case isFalse h => simp [hasId_append, hasId]

/-- Deduplicating insertion keeps ids duplicate-free. -/
theorem addNodeIfNew_nodup {l : List GraphNode} (n : GraphNode)
    (h : (l.map GraphNode.id).Nodup) : ((addNodeIfNew l n).map GraphNode.id).Nodup := by
  unfold addNodeIfNew
  split
  case isTrue hc => exact h
  case isFalse hc =>
    rw [List.map_append]
    rw [List.nodup_append]
    refine ⟨h, by simp, ?_⟩
    simp only [List.map_cons, List.map_nil, List.disjoint_singleton]
    intro hmem
    exact hc ((hasId_iff l n.id).mpr hmem)

/-- Folding the stream keeps ids duplicate-free. -/
theorem foldl_addNodeIfNew_nodup (occs : List GraphNode) (init : List GraphNode)
    (h : (init.map GraphNode.id).Nodup) :
    (((occs.foldl addNodeIfNew init).map GraphNode.id)).Nodup := by
  induction occs generalizing init with
  | nil => exact h
  | cons o rest ih => exact ih _ (addNodeIfNew_nodup o h)

/-- hasId is monotone under folding the stream. -/
theorem foldl_addNodeIfNew_hasId (occs : List GraphNode) (init : List GraphNode) (i : String)
    (h : hasId init i = true) : hasId (occs.foldl addNodeIfNew init) i = true := by
  induction occs generalizing init with
  | nil => exact h
  | cons o rest ih => exact ih _ (hasId_addNodeIfNew o h)

/-- Every id of the stream is present after the fold. -/
theorem foldl_addNodeIfNew_covers (occs : List GraphNode) (init : List GraphNode) :
    ∀ m ∈ occs, hasId (occs.foldl addNodeIfNew init) m.id = true := by
  induction occs generalizing init with
  | nil => intro m hm; cases hm
  | cons o rest ih =>
    intro m hm
    rcases List.mem_cons.mp hm with he | hr
    · subst he
      exact foldl_addNodeIfNew_hasId rest _ _ (hasId_addNodeIfNew_self init m)
    · exact ih _ m hr

/-- Every node of the fold comes from the initial list or is the first
element of the stream carrying its id. -/
theorem foldl_addNodeIfNew_firstWins (occs : List GraphNode) (init : List GraphNode)
    (n : GraphNode) (hmem : n ∈ occs.foldl addNodeIfNew init) :
    n ∈ init ∨ (hasId init n.id = false ∧ occs.find? (fun m => m.id == n.id) = some n) := by
  induction occs generalizing init with
  | nil => exact Or.inl hmem
  | cons o rest ih =>
    rw [List.foldl_cons] at hmem
    rcases ih (addNodeIfNew init o) hmem with h1 | ⟨h2, h3⟩
    · unfold addNodeIfNew at h1
      split at h1
      case isTrue hc => exact Or.inl h1
      case isFalse hc =>
        rcases List.mem_append.mp h1 with hi | hs
        · exact Or.inl hi
        · have he : n = o := by simpa using hs
          subst he
          refine Or.inr ⟨by simpa using hc, ?_⟩
          exact List.find?_cons_of_pos _ (by simp)
    · have hsplit : hasId init n.id = false ∧ (o.id == n.id) = false := by
        unfold addNodeIfNew at h2
        split at h2
        case isTrue hc =>
          refine ⟨h2, ?_⟩
          by_contra hne
          have : o.id = n.id := by
            cases hb : (o.id == n.id) with
            | true => exact beq_iff_eq.mp hb
            | false => exact absurd hb hne
          rw [this] at hc
          rw [hc] at h2
          cases h2
        case isFalse hc =>
          rw [hasId_append] at h2
          simp only [Bool.or_eq_false_iff] at h2
          refine ⟨h2.1, ?_⟩
          have := h2.2
          simpa [hasId] using this
      refine Or.inr ⟨hsplit.1, ?_⟩
      rw [List.find?_cons_of_neg _ (by simp [hsplit.2])]
      exact h3

/-- The id image of a deduplicating insertion. -/
theorem addNodeIfNew_map_id (l : List GraphNode) (n : GraphNode) :
    (addNodeIfNew l n).map GraphNode.id = addIdIfNew (l.map GraphNode.id) n.id := by
  have hEq : hasId l n.id = (l.map GraphNode.id).contains n.id := by
    rw [Bool.eq_iff_iff]
    rw [hasId_iff]
    rw [List.contains_iff_exists_mem_beq]
    simp
  unfold addNodeIfNew addIdIfNew
  rw [hEq]
  split
  · rfl
  · simp

/-- The id image of folding the stream. -/
theorem foldl_addNodeIfNew_map_id (occs : List GraphNode) (init : List GraphNode) :
    (occs.foldl addNodeIfNew init).map GraphNode.id
      = occs.foldl (fun acc n => addIdIfNew acc n.id) (init.map GraphNode.id) := by
  induction occs generalizing init with
  | nil => rfl
  | cons o rest ih => simp [List.foldl_cons, ih, addNodeIfNew_map_id]

/-- Length bound of the deduplicating fold. -/
theorem foldl_addNodeIfNew_length (occs : List GraphNode) (init : List GraphNode) :
    (occs.foldl addNodeIfNew init).length ≤ init.length + occs.length := by
  induction occs generalizing init with
  | nil => simp
  | cons o rest ih =>
    have h1 := ih (addNodeIfNew init o)
    have h2 : (addNodeIfNew init o).length ≤ init.length + 1 := by
      unfold addNodeIfNew
      split
      · omega
      · simp
    simp only [List.foldl_cons, List.length_cons]
    omega

/-- A segment list's node stream has two nodes per segment. -/
theorem segNodeOccs_length (segs : List Seg) : (segNodeOccs segs).length = 2 * segs.length := by
  induction segs with
  | nil => rfl
  | cons s rest ih =>
    simp [segNodeOccs, ih]
    omega

/-- Priority of the classifier: Node wins whenever the node shape
matches. -/
theorem classify_nodeS_iff (v : Val) : classify v = Shape.nodeS ↔ isNode v = true := by
  unfold classify
  by_cases h1 : isNode v
  · simp [h1]
  · by_cases h2 : isRelationship v
    · simp [h1, h2]
    · by_cases h3 : isPath v <;> simp [h1, h2, h3]

/-- Relationship classification: the node shape failed and the
relationship shape matched. -/
theorem classify_relS_iff (v : Val) :
    classify v = Shape.relS ↔ (isNode v = false ∧ isRelationship v = true) := by
  unfold classify
  by_cases h1 : isNode v
  · simp [h1]
  · by_cases h2 : isRelationship v
    · simp [h1, h2]
    · by_cases h3 : isPath v <;> simp [h1, h2, h3]

/-- Path classification: node and relationship shapes failed and the path
shape matched. -/
theorem classify_pathS_iff (v : Val) :
    classify v = Shape.pathS ↔
      (isNode v = false ∧ isRelationship v = false ∧ isPath v = true) := by
  unfold classify
  by_cases h1 : isNode v
  · simp [h1]
  · by_cases h2 : isRelationship v
    · simp [h1, h2]
    · by_cases h3 : isPath v <;> simp [h1, h2, h3]

/-- Scalar classification is exactly the fallthrough of all three graph
shapes. -/
theorem classify_scalarS_iff (v : Val) :
    classify v = Shape.scalarS ↔
      (isNode v = false ∧ isRelationship v = false ∧ isPath v = false) := by
  unfold classify
  by_cases h1 : isNode v
  · simp [h1]
  · by_cases h2 : isRelationship v
    · simp [h1, h2]
    · by_cases h3 : isPath v <;> simp [h1, h2, h3]

/-- A scalar-classified field is routed to the record's scalar map through
the value coercer, and nothing else changes. -/
theorem classify_scalar_route (st : FieldState) (key : String) (v : Val)
    (h : classify v = Shape.scalarS) :
    processField st key v
      = { st with recordData := st.recordData ++ [(key, formatScalarValue v)] } := by
  rcases (classify_scalarS_iff v).mp h with ⟨h1, h2, h3⟩
  simp [processField, h1, h2, h3]

/-- C1: when session acquisition fails with getSession's ConnectionError,
execute does not reject with it unchanged: the catch block's isNeo4jError
test matches any Error carrying a string message, so the ConnectionError is
re-wrapped into a QueryError with a generic Neo4j error message (the
instanceof ConnectionError re-throw placed after that test is unreachable).
The session-release step is indeed never attempted: closeCalls is zero. -/
theorem claim_C1_acquisition_failure_behavior :
    execute AcquireResult.failure =
      { outcome := Except.error (FinalError.fromCatch
          (ExecErr.queryError
            "Neo4j error: Not connected to database. Call connect() first." false))
        closeCalls := 0 } := rfl

/-- C2: behavior of the code at Scenario A's input. The node and
relationship outputs match the scenario, but the record whose only field is
a node still contributes one empty scalar row, so the row sequence comes
back present (one empty row) rather than absent: hasGraphData is set only
in the relationship branch, never in the node branch. -/
theorem claim_C2_scenarioA_behavior :
    (processResults [[("n", Val.object annObj)]]).nodes
        = [{ id := "4", label := "Person", properties := [("name", "Ann")] }] ∧
    (processResults [[("n", Val.object annObj)]]).relationships = [] ∧
    (processResults [[("n", Val.object annObj)]]).scalarData = some [[]] :=
  ⟨rfl, rfl, rfl⟩

/-- C3 counterexample: a run that succeeds with zero records but whose
session close rejects makes execute reject with the close failure. The
finally block awaits session.close() with no surrounding try/catch, so a
release failure is raised to the caller (here turning a successful result
into a rejection) rather than swallowed and logged. -/
theorem claim_C3_counterexample :
    (execute (AcquireResult.success (Except.ok []) (some closeFailErr))).outcome
        = Except.error (FinalError.fromClose closeFailErr) ∧
    ∀ g, (execute (AcquireResult.success (Except.ok []) (some closeFailErr))).outcome
        ≠ Except.ok g := by
  refine ⟨rfl, ?_⟩
  intro g h
  exact Except.noConfusion h

/-- C3 amended: when a session was obtained and its close rejects, the
close failure always propagates to the caller of execute, replacing the
primary outcome (masking any primary error and turning a successful result
into a rejection); close is still invoked exactly once. -/
theorem claim_C3_amended_close_failure_propagates
    (runResult : Except JsError (List Rec)) (c : JsError) :
    (execute (AcquireResult.success runResult (some c))).outcome
        = Except.error (FinalError.fromClose c) ∧
    (execute (AcquireResult.success runResult (some c))).closeCalls = 1 :=
  ⟨rfl, rfl⟩

/-- C4: whenever a session was obtained, execute invokes close exactly once
on every exit path (run success, run failure, and close failure alike); and
when the record stream fails with a syntax-class Neo4j error code while
close succeeds, execute rejects with a QueryError carrying a syntax
message. -/
theorem claim_C4_close_exactly_once :
    (∀ runResult closeFailure,
      (execute (AcquireResult.success runResult closeFailure)).closeCalls = 1) ∧
    (∀ e : JsError, isNeo4jError e = true →
      strIncludes (e.code.getD "") "SyntaxError" = true →
      (execute (AcquireResult.success (Except.error e) none)).outcome
        = Except.error (FinalError.fromCatch
            (ExecErr.queryError ("Syntax error in query: " ++ e.message) false))) := by
  constructor
  · intro runResult closeFailure
    cases closeFailure with
    | some c => rfl
    | none =>
      cases runResult with
      | ok records => rfl
      | error e => rfl
  · intro e h1 h2
    simp only [execute]
    simp [classifyCaught, h1, h2]

/-- C4 witness: Scenario E at a concrete syntax-class error, close
succeeding. -/
theorem claim_C4_close_exactly_once_witness :
    (execute (AcquireResult.success (Except.error syntaxErr) none)).closeCalls = 1 ∧
    (execute (AcquireResult.success (Except.error syntaxErr) none)).outcome
      = Except.error (FinalError.fromCatch
          (ExecErr.queryError ("Syntax error in query: " ++ syntaxErr.message) false)) :=
  ⟨claim_C4_close_exactly_once.1 (Except.error syntaxErr) none,
   claim_C4_close_exactly_once.2 syntaxErr rfl (by decide)⟩

/-- C5: node-identity invariant of processResults. Over the stream of node
constructions an execution performs (record fields and path segment
endpoints alike, in record order), the node output has duplicate-free ids;
every output node is literally the first occurrence of its id in the
stream (so the first occurrence's label and properties win); every
occurring id is represented; and the output ids stand in first-seen
order. -/
theorem claim_C5_node_identity (recs : List Rec) :
    (((processResults recs).nodes.map GraphNode.id).Nodup) ∧
    (∀ n ∈ (processResults recs).nodes,
        (nodeOccs recs).find? (fun m => m.id == n.id) = some n) ∧
    (∀ m ∈ nodeOccs recs, hasId (processResults recs).nodes m.id = true) ∧
    ((processResults recs).nodes.map GraphNode.id
        = firstSeen ((nodeOccs recs).map GraphNode.id)) := by
  refine ⟨?_, ?_, ?_, ?_⟩
  · rw [processResults_nodes]
    exact foldl_addNodeIfNew_nodup _ _ (by simp)
  · intro n hn
    rw [processResults_nodes] at hn
    rcases foldl_addNodeIfNew_firstWins _ _ _ hn with h | ⟨_, h⟩
    · cases h
    · exact h
  · intro m hm
    rw [processResults_nodes]
    exact foldl_addNodeIfNew_covers _ _ m hm
  · rw [processResults_nodes, foldl_addNodeIfNew_map_id]
    simp [firstSeen, List.foldl_map]

/-- C5 witness: the same node identity in two records resolves to the
first occurrence. -/
theorem claim_C5_node_identity_witness :
    (nodeOccs demoRecs).find? (fun m => m.id == annNode.id) = some annNode :=
  (claim_C5_node_identity demoRecs).2.1 annNode (by decide)

/-- C6: a path-classified value with k segments contributes exactly its k
segment relationships, appended in segment order, and at most 2k node
insertions (each segment's start and end node, deduplicated against the
node set accumulated so far). -/
theorem claim_C6_path_decomposition (st : FieldState) (key : String) (v : Val)
    (h : classify v = Shape.pathS) :
    (processField st key v).rels = st.rels ++ v.asObj.segments.map segRelOf ∧
    (processField st key v).rels.length = st.rels.length + v.asObj.segments.length ∧
    (processField st key v).nodes.length ≤ st.nodes.length + 2 * v.asObj.segments.length := by
  rcases (classify_pathS_iff v).mp h with ⟨h1, h2, h3⟩
  have hr : (processField st key v).rels = st.rels ++ v.asObj.segments.map segRelOf := by
    rw [processField_rels]
    simp [fieldRelOccs, h1, h2, h3]
  refine ⟨hr, ?_, ?_⟩
  · rw [hr]; simp
  · rw [processField_nodes]
    have hocc : fieldNodeOccs v = segNodeOccs v.asObj.segments := by
      simp [fieldNodeOccs, h1, h2, h3]
    rw [hocc]
    have := foldl_addNodeIfNew_length (segNodeOccs v.asObj.segments) st.nodes
    rw [segNodeOccs_length] at this
    omega

/-- C6 witness: a concrete one-segment path processed from the empty
state. -/
theorem claim_C6_path_decomposition_witness :
    (processField fs0 "p" (Val.object demoPathObj)).rels
        = fs0.rels ++ (Val.object demoPathObj).asObj.segments.map segRelOf ∧
    (processField fs0 "p" (Val.object demoPathObj)).rels.length
        = fs0.rels.length + (Val.object demoPathObj).asObj.segments.length ∧
    (processField fs0 "p" (Val.object demoPathObj)).nodes.length
        ≤ fs0.nodes.length + 2 * (Val.object demoPathObj).asObj.segments.length :=
  claim_C6_path_decomposition fs0 "p" (Val.object demoPathObj) (by decide)

/-- C7: relationships are never deduplicated: the relationship output is
exactly the stream of relationship constructions (record fields and path
segments) in encounter order, so an identity occurring N times yields
exactly N entries. -/
theorem claim_C7_relationship_multiplicity (recs : List Rec) :
    (processResults recs).relationships = relOccs recs ∧
    ∀ i : String,
      ((processResults recs).relationships.filter (fun r => r.id == i)).length
        = ((relOccs recs).filter (fun r => r.id == i)).length := by
  refine ⟨processResults_rels recs, ?_⟩
  intro i
  rw [processResults_rels]

/-- C8: the classifier assigns exactly one of the four tags by testing the
shapes in the fixed priority order Node, Relationship, Path, else Scalar;
a value matching none of the graph shapes always falls through to Scalar
and is routed, without error, to the record's scalar map. -/
theorem claim_C8_classifier :
    (∀ v, classify v = Shape.nodeS ↔ isNode v = true) ∧
    (∀ v, classify v = Shape.relS ↔ (isNode v = false ∧ isRelationship v = true)) ∧
    (∀ v, classify v = Shape.pathS ↔
        (isNode v = false ∧ isRelationship v = false ∧ isPath v = true)) ∧
    (∀ v, classify v = Shape.scalarS ↔
        (isNode v = false ∧ isRelationship v = false ∧ isPath v = false)) ∧
    (∀ st key v, classify v = Shape.scalarS →
        processField st key v
          = { st with recordData := st.recordData ++ [(key, formatScalarValue v)] }) :=
  ⟨classify_nodeS_iff, classify_relS_iff, classify_pathS_iff, classify_scalarS_iff,
   classify_scalar_route⟩

/-- C8 witness: an object value carrying none of the graph-shape keys is
classified Scalar and routed to the scalar map. -/
theorem claim_C8_classifier_witness :
    processField fs0 "x" (Val.object malformedObj)
      = { fs0 with recordData :=
            fs0.recordData ++ [("x", formatScalarValue (Val.object malformedObj))] } :=
  claim_C8_classifier.2.2.2.2 fs0 "x" (Val.object malformedObj) (by decide)

/-- C9: the value coercer converts a boxed integer (an object carrying low
and high keys) to a number via toNumber when available, otherwise to its
string rendering; it recurses element-wise through arrays; and it passes
every other value, objects included, through unchanged. -/
theorem claim_C9_value_coercion :
    (∀ o : ObjVal, o.keys.contains "low" = true → o.keys.contains "high" = true →
        formatScalarValue (Val.object o)
          = if o.hasToNumber then Val.prim (Prim.num o.toNumber)
            else Val.prim (Prim.str o.toStr)) ∧
    (∀ xs : List Val, formatScalarValue (Val.arr xs) = Val.arr (xs.map formatScalarValue)) ∧
    (∀ o : ObjVal, (o.keys.contains "low" && o.keys.contains "high") = false →
        formatScalarValue (Val.object o) = Val.object o) ∧
    (∀ p : Prim, formatScalarValue (Val.prim p) = Val.prim p) := by
  refine ⟨?_, ?_, ?_, ?_⟩
  · intro o h1 h2
    simp only [formatScalarValue]
    rw [h1, h2]
    simp
  · intro xs
    rw [formatScalarValue]
    rw [List.attach_map_val xs formatScalarValue]
  · intro o h
    simp only [formatScalarValue, h]
    simp
  · intro p
    simp [formatScalarValue]

/-- C9 witness: a concrete boxed integer coerces through toNumber. -/
theorem claim_C9_value_coercion_witness :
    formatScalarValue (Val.object boxedInt)
      = if boxedInt.hasToNumber then Val.prim (Prim.num boxedInt.toNumber)
        else Val.prim (Prim.str boxedInt.toStr) :=
  claim_C9_value_coercion.1 boxedInt (by decide) (by decide)

/-- C10 counterexample: the claim states that a node with a non-empty
label list gets the labels joined with a colon. For the label list holding
one empty string the join is empty, and the code produces the fallback
Node instead of that join. -/
theorem claim_C10_counterexample :
    (processResults [[("n", Val.object blankLabelObj)]]).nodes.map GraphNode.label
        = ["Node"] ∧
    String.intercalate ":" [""] ≠ "Node" :=
  ⟨rfl, by decide⟩

/-- C10 amended: the node label is the labels joined with a colon whenever
that join is non-empty, and the fallback Node whenever the join is empty
(in particular for the empty label list); the relationship type, for
record-level and path-segment relationships alike, is the fallback
RELATES_TO exactly when the type tag is empty or absent, and the tag
itself otherwise. -/
theorem claim_C10_amended_defaults :
    (∀ ident props, (mkNode ident [] props).label = "Node") ∧
    (∀ ident labels props, String.intercalate ":" labels = "" →
        (mkNode ident labels props).label = "Node") ∧
    (∀ ident labels props, String.intercalate ":" labels ≠ "" →
        (mkNode ident labels props).label = String.intercalate ":" labels) ∧
    (∀ o : ObjVal, o.type = "" → (relFrom o).type = "RELATES_TO") ∧
    (∀ o : ObjVal, o.type ≠ "" → (relFrom o).type = o.type) ∧
    (∀ r : SegRel, r.type = "" → (relFromSegRel r).type = "RELATES_TO") ∧
    (∀ r : SegRel, r.type ≠ "" → (relFromSegRel r).type = r.type) := by
  refine ⟨?_, ?_, ?_, ?_, ?_, ?_, ?_⟩
  · intro ident props
    rfl
  · intro ident labels props h
    simp [mkNode, h]
  · intro ident labels props h
    simp [mkNode, h]
  · intro o h
    simp [relFrom, h]
  · intro o h
    simp [relFrom, h]
  · intro r h
    simp [relFromSegRel, h]
  · intro r h
    simp [relFromSegRel, h]

/-- C10 witness: the defaults at concrete inputs. -/
theorem claim_C10_amended_defaults_witness :
    (mkNode "5" [] none).label = "Node" ∧ (relFrom emptyTypeRelObj).type = "RELATES_TO" :=
  ⟨claim_C10_amended_defaults.1 "5" none,
   claim_C10_amended_defaults.2.2.2.1 emptyTypeRelObj rfl⟩

end Neo4jQuery
